import Mathlib

/-!
Verification development for the prep(x) backend (src/backend/main.py and
src/backend/agents.py): a shallow embedding of the session/job lifecycle,
the per-session event hub (log + SSE fan-out), the rate limiter, the
defensive JSON recovery around agent responses, and the data shaping of the
four pipeline stages, together with theorems settling the frozen claims.

Modelling conventions:
  - Python dicts produced by the agents are modelled by inductives that
    distinguish the shapes the code branches on (dict vs list vs str).
  - The external LLM calls are opaque: each is a parameter supplying the
    parsed response the code would have received.
  - Code between two `await` suspension points runs atomically under the
    asyncio cooperative scheduler; such blocks are single steps here.
  - Python string truthiness is `s ≠ ""`; `a in b` on strings is the
    substring test, modelled via `String.splitOn` (same left-to-right,
    non-overlapping semantics as Python `str.split`).
-/

namespace PrepX

/-! ### Event hub: session_logs / session_queues (main.py lines 34-38, 105-148, 293-312) -/

/-- One log entry dict as built by `add_log` / the terminal dicts in
`run_agent_workflow`; `done` models the presence of the `"_done": True` key. -/
structure Event where
  agent : String
  message : String
  timestamp : String
  status : String
  done : Bool
deriving DecidableEq

/-- The per-session slice of the module-level state: `session_logs[sid]` and
`session_queues[sid]`. Each queue is the full FIFO sequence of entries ever
put into one subscriber queue. -/
structure HubState where
  log : List Event
  queues : List (List Event)
deriving DecidableEq

def HubState.empty : HubState := ⟨[], []⟩

/-- `add_log` builds this dict (no `_done` key, hence `done := false`). -/
def logEntry (agent message status ts : String) : Event :=
  ⟨agent, message, ts, status, false⟩

/-- The terminal dicts broadcast at main.py lines 270-276 and 285-291. -/
def doneEvent (message ts status : String) : Event :=
  ⟨"System", message, ts, status, true⟩

/-- main.py `broadcast_log`: put the entry on every registered queue
(queues are unbounded, so `put_nowait` never raises `QueueFull`). -/
def broadcast_log (st : HubState) (e : Event) : HubState :=
  { st with queues := st.queues.map (fun q => q ++ [e]) }

/-- main.py `add_log`: append the entry to the session log, then broadcast it. -/
def add_log (st : HubState) (agent message status ts : String) : HubState :=
  broadcast_log { st with log := st.log ++ [logEntry agent message status ts] }
    (logEntry agent message status ts)

/-- One atomic operation on a session hub.  `emit` is an `add_log` call from
the job worker; `finish` is the `broadcast_log` of the terminal `_done` dict;
`subscribe` is the registration-plus-backlog block of `stream_logs`
(main.py lines 108-118; it contains no real suspension point, since
`Queue.put` on a non-full queue does not yield, so it is one atomic step). -/
inductive HubOp where
  | emit (agent message status ts : String)
  | finish (message ts status : String)
  | subscribe
deriving DecidableEq

def applyHubOp (st : HubState) : HubOp → HubState
  | .emit a m s t => add_log st a m s t
  | .finish m t s => broadcast_log st (doneEvent m t s)
  | .subscribe => { st with queues := st.queues ++ [st.log] }

/-- Run a sequence of hub operations. -/
def runHub (st : HubState) (ops : List HubOp) : HubState := ops.foldl applyHubOp st

/-- The events an operation pushes onto every queue registered at the time. -/
def opEmits : HubOp → List Event
  | .emit a m s t => [logEntry a m s t]
  | .finish m t s => [doneEvent m t s]
  | .subscribe => []

/-- The events an operation appends to the session log. -/
def opLogs : HubOp → List Event
  | .emit a m s t => [logEntry a m s t]
  | .finish _ _ _ => []
  | .subscribe => []

def emitted : List HubOp → List Event
  | [] => []
  | op :: ops => opEmits op ++ emitted ops

def loggedOf : List HubOp → List Event
  | [] => []
  | op :: ops => opLogs op ++ loggedOf ops

def noFinish : HubOp → Bool
  | .finish _ _ _ => false
  | _ => true

/-- The SSE `event_generator` (main.py lines 120-134): pops the queue in FIFO
order, yields each entry, and returns right after yielding the first entry
carrying `_done`.  Applied to the full queue contents it gives the sequence
of data frames the subscriber receives. -/
def deliverStream : List Event → List Event
  | [] => []
  | e :: rest => if e.done then [e] else e :: deliverStream rest

theorem emitted_append (xs ys : List HubOp) :
    emitted (xs ++ ys) = emitted xs ++ emitted ys := by
  induction xs with
  | nil => simp [emitted]
  | cons x xs ih => simp [emitted, ih]

theorem applyHubOp_log (st : HubState) (op : HubOp) :
    (applyHubOp st op).log = st.log ++ opLogs op := by
  cases op <;> simp [applyHubOp, add_log, broadcast_log, opLogs]

theorem runHub_log (ops : List HubOp) (st : HubState) :
    (runHub st ops).log = st.log ++ loggedOf ops := by
  induction ops generalizing st with
  | nil => simp [runHub, loggedOf]
  | cons op ops ih =>
      have h := ih (applyHubOp st op)
      simp only [runHub, List.foldl_cons] at h ⊢
      rw [h, applyHubOp_log, loggedOf, List.append_assoc]

theorem applyHubOp_queue (st : HubState) (op : HubOp) (i : ℕ) (q : List Event)
    (h : st.queues[i]? = some q) :
    (applyHubOp st op).queues[i]? = some (q ++ opEmits op) := by
  have hlt : i < st.queues.length := by
    by_contra hge
    push_neg at hge
    rw [List.getElem?_eq_none hge] at h
    exact Option.noConfusion h
  cases op with
  | emit a m s t =>
      simp [applyHubOp, add_log, broadcast_log, opEmits, List.getElem?_map, h]
  | finish m t s =>
      simp [applyHubOp, broadcast_log, opEmits, List.getElem?_map, h]
  | subscribe =>
      simp [applyHubOp, opEmits, List.getElem?_append_left hlt, h]

theorem runHub_queue (ops : List HubOp) (st : HubState) (i : ℕ) (q : List Event)
    (h : st.queues[i]? = some q) :
    (runHub st ops).queues[i]? = some (q ++ emitted ops) := by
  induction ops generalizing st q with
  | nil => simpa [runHub, emitted] using h
  | cons op ops ih =>
      have h1 := applyHubOp_queue st op i q h
      have h2 := ih (applyHubOp st op) (q ++ opEmits op) h1
      simp only [runHub, List.foldl_cons] at h2 ⊢
      rw [h2, emitted, List.append_assoc]

theorem loggedOf_eq_emitted (ops : List HubOp) (h : ops.all noFinish = true) :
    loggedOf ops = emitted ops := by
  induction ops with
  | nil => rfl
  | cons op ops ih =>
      simp only [List.all_cons, Bool.and_eq_true] at h
      cases op with
      | emit a m s t => simp [loggedOf, emitted, opLogs, opEmits, ih h.2]
      | finish m t s => simp [noFinish] at h
      | subscribe => simp [loggedOf, emitted, opLogs, opEmits, ih h.2]

theorem emitted_not_done (ops : List HubOp) (h : ops.all noFinish = true) :
    (emitted ops).all (fun e => !e.done) = true := by
  induction ops with
  | nil => rfl
  | cons op ops ih =>
      simp only [List.all_cons, Bool.and_eq_true] at h
      cases op with
      | emit a m s t => simp [emitted, opEmits, logEntry, ih h.2]
      | finish m t s => simp [noFinish] at h
      | subscribe => simpa [emitted, opEmits] using ih h.2

theorem countP_done_zero (es : List Event) (h : es.all (fun e => !e.done) = true) :
    es.countP (fun e => e.done) = 0 := by
  induction es with
  | nil => rfl
  | cons e es ih =>
      simp only [List.all_cons, Bool.and_eq_true, Bool.not_eq_true'] at h
      simp [List.countP_cons, h.1, ih h.2]

theorem deliverStream_append_done (es : List Event) (t : Event)
    (h : es.all (fun e => !e.done) = true) (ht : t.done = true) :
    deliverStream (es ++ [t]) = es ++ [t] := by
  induction es with
  | nil => simp [deliverStream, ht]
  | cons e es ih =>
      simp only [List.all_cons, Bool.and_eq_true, Bool.not_eq_true'] at h
      simp [deliverStream, h.1, ih h.2]

theorem deliverStream_all_not_done (es : List Event)
    (h : es.all (fun e => !e.done) = true) :
    deliverStream es = es := by
  induction es with
  | nil => rfl
  | cons e es ih =>
      simp only [List.all_cons, Bool.and_eq_true, Bool.not_eq_true'] at h
      simp [deliverStream, h.1, ih h.2]

/-! ### The background job worker `run_agent_workflow` (main.py lines 150-291) -/

/-- One Plan Task dict of the final schedule (fields per the
ChiefOrchestrator output contract used by the code). -/
structure Task where
  date : String
  course : String
  topic : String
  task_type : String
  duration_hours : ℚ
  resources : String
  notes : String
deriving DecidableEq

/-- The value stored in `session_results[sid]`: the final plan list on
success, the dict with an `"error"` key on failure. -/
inductive ResultVal where
  | plan (tasks : List Task)
  | errorDesc (msg : String)
deriving DecidableEq

/-- Arguments of one intermediate `add_log` call made inside the try-body of
`run_agent_workflow` (the per-stage progress events; their exact text is
data the claims do not constrain, so they are parameters of the run). -/
structure LogCall where
  agent : String
  message : String
  status : String
  ts : String
deriving DecidableEq

def LogCall.toOp (l : LogCall) : HubOp := .emit l.agent l.message l.status l.ts

/-- main.py line 267: the final success log message. -/
def planCompleteMsg (tasks : List Task) : String :=
  "Plan complete — " ++ toString tasks.length ++
    " study sessions scheduled across " ++
    toString ((tasks.map Task.date).dedup).length ++ " days."

/-- Outcome of the try-body of `run_agent_workflow` up to (and excluding)
the final logging: either the body ran to completion with a final plan, or
some exception escaped after a prefix of the intermediate log calls.
`msgTs`/`errTs`/`doneTs` stand for the `datetime.now()` timestamps. -/
inductive BodyOutcome where
  | ok (logs : List LogCall) (tasks : List Task) (msgTs doneTs : String)
  | exn (logs : List LogCall) (msg : String) (errTs doneTs : String)
deriving DecidableEq

/-- The hub operations `run_agent_workflow` performs, in order: the
intermediate `add_log` calls, then on success the final success log and the
terminal broadcast (lines 267-276), and on any exception the error log and
the terminal broadcast of the except-branch (lines 283-291). -/
def workflowOps : BodyOutcome → List HubOp
  | .ok logs tasks msgTs doneTs =>
      logs.map LogCall.toOp ++
        [HubOp.emit "ChiefOrchestrator" (planCompleteMsg tasks) "success" msgTs,
         HubOp.finish "All agents finished." doneTs "success"]
  | .exn logs msg errTs doneTs =>
      logs.map LogCall.toOp ++
        [HubOp.emit "System" ("Error: " ++ msg) "error" errTs,
         HubOp.finish ("Pipeline failed: " ++ msg) doneTs "error"]

/-- The value `run_agent_workflow` writes into `session_results[sid]`
(line 265 on success, line 284 in the except-branch). -/
def workflowResult : BodyOutcome → ResultVal
  | .ok _ tasks _ _ => .plan tasks
  | .exn _ msg _ _ => .errorDesc msg

/-- The per-session state a job worker touches: the hub plus the result slot. -/
structure SessionState where
  hub : HubState
  result : Option ResultVal

/-- `run_agent_workflow` as a total state transformer: the try/except
structure catches every exception of the body, so the worker itself never
propagates one — both branches end in a stored result and a terminal
broadcast. -/
def run_agent_workflow (st : SessionState) (o : BodyOutcome) : SessionState :=
  ⟨runHub st.hub (workflowOps o), some (workflowResult o)⟩

theorem logCalls_noFinish (logs : List LogCall) :
    (logs.map LogCall.toOp).all noFinish = true := by
  induction logs with
  | nil => rfl
  | cons l logs ih => simp [LogCall.toOp, noFinish, ih]

theorem workflowOps_shape (o : BodyOutcome) :
    ∃ body m ts s, workflowOps o = body ++ [HubOp.finish m ts s] ∧
      body.all noFinish = true := by
  cases o with
  | ok logs tasks msgTs doneTs =>
      refine ⟨logs.map LogCall.toOp ++
        [HubOp.emit "ChiefOrchestrator" (planCompleteMsg tasks) "success" msgTs],
        "All agents finished.", doneTs, "success", by simp [workflowOps], ?_⟩
      simp [logCalls_noFinish, noFinish]
  | exn logs msg errTs doneTs =>
      refine ⟨logs.map LogCall.toOp ++
        [HubOp.emit "System" ("Error: " ++ msg) "error" errTs],
        "Pipeline failed: " ++ msg, doneTs, "error", by simp [workflowOps], ?_⟩
      simp [logCalls_noFinish, noFinish]

/-! ### Claim C1 -/

/-- C1: a subscriber that opens the per-session stream at any point while the
job is running (modelled as: `pre` hub operations have happened, none of them
the terminal broadcast, then the atomic subscribe step, then the remaining
`body` operations followed by the single terminal broadcast) receives on its
queue exactly the full backlog followed by every subsequent emission, i.e.
the complete emission sequence in original order with no duplicate and no
gap; the SSE generator delivers all of it and the stream ends right after
the single terminal event, which is the last event delivered. -/
theorem c1_subscriber_stream (pre body : List HubOp) (m ts s : String)
    (hpre : pre.all noFinish = true) (hbody : body.all noFinish = true) :
    ((runHub HubState.empty
        (pre ++ HubOp.subscribe :: (body ++ [HubOp.finish m ts s]))).queues[
          (runHub HubState.empty pre).queues.length]? =
      some (emitted pre ++ (emitted body ++ [doneEvent m ts s]))) ∧
    emitted (pre ++ HubOp.subscribe :: (body ++ [HubOp.finish m ts s])) =
      emitted pre ++ (emitted body ++ [doneEvent m ts s]) ∧
    deliverStream (emitted pre ++ (emitted body ++ [doneEvent m ts s])) =
      emitted pre ++ (emitted body ++ [doneEvent m ts s]) ∧
    (emitted pre ++ (emitted body ++ [doneEvent m ts s])).countP
      (fun e => e.done) = 1 ∧
    (emitted pre ++ (emitted body ++ [doneEvent m ts s])).getLast? =
      some (doneEvent m ts s) := by
  have hnd : (emitted pre ++ emitted body).all (fun e => !e.done) = true := by
    simp [List.all_append, emitted_not_done pre hpre, emitted_not_done body hbody]
  have hassoc : emitted pre ++ (emitted body ++ [doneEvent m ts s]) =
      (emitted pre ++ emitted body) ++ [doneEvent m ts s] := by
    simp [List.append_assoc]
  refine ⟨?_, ?_, ?_, ?_, ?_⟩
  · -- queue contents: backlog snapshot, then everything emitted afterwards
    have hsplit : pre ++ HubOp.subscribe :: (body ++ [HubOp.finish m ts s]) =
        (pre ++ [HubOp.subscribe]) ++ (body ++ [HubOp.finish m ts s]) := by
      simp
    rw [hsplit]
    have hrun : runHub HubState.empty ((pre ++ [HubOp.subscribe]) ++
        (body ++ [HubOp.finish m ts s])) =
        runHub (runHub HubState.empty (pre ++ [HubOp.subscribe]))
          (body ++ [HubOp.finish m ts s]) := by
      simp [runHub, List.foldl_append]
    rw [hrun]
    have hsub : runHub HubState.empty (pre ++ [HubOp.subscribe]) =
        applyHubOp (runHub HubState.empty pre) HubOp.subscribe := by
      simp [runHub, List.foldl_append]
    set st1 := runHub HubState.empty pre with hst1
    have hlog : st1.log = emitted pre := by
      rw [hst1, runHub_log, ← loggedOf_eq_emitted pre hpre]
      rfl
    have hq : (applyHubOp st1 HubOp.subscribe).queues[st1.queues.length]? =
        some st1.log := by
      simp [applyHubOp]
    have := runHub_queue (body ++ [HubOp.finish m ts s])
      (applyHubOp st1 HubOp.subscribe) st1.queues.length st1.log hq
    rw [hsub, this, hlog, emitted_append]
    simp [emitted, opEmits]
  · -- the queue sequence is exactly the emission sequence of the whole run
    rw [emitted_append, emitted]
    simp [opEmits, emitted_append, emitted]
  · rw [hassoc]
    exact deliverStream_append_done _ _ hnd rfl
  · rw [hassoc]
    simp [List.countP_append, countP_done_zero _ (emitted_not_done pre hpre),
      countP_done_zero _ (emitted_not_done body hbody), List.countP_cons, doneEvent]
  · rw [hassoc]
    simp

def c1pre : List HubOp :=
  [HubOp.emit "SyllabusExpert" "Analyzing syllabus for CS101..." "loading" "t1",
   HubOp.emit "SyllabusExpert" "Syllabus extracted for CS101 — 2 modules identified." "success" "t2",
   HubOp.emit "ExamScopeAnalyst" "Analyzing midterm overview for CS101..." "loading" "t3"]

def c1body : List HubOp :=
  [HubOp.emit "ChiefOrchestrator" "Plan complete — 4 study sessions scheduled across 2 days." "success" "t4"]

theorem c1_subscriber_stream_witness :
    c1pre.all noFinish = true ∧ c1body.all noFinish = true ∧
    (((runHub HubState.empty
        (c1pre ++ HubOp.subscribe :: (c1body ++ [HubOp.finish "All agents finished." "t5" "success"]))).queues[
          (runHub HubState.empty c1pre).queues.length]? =
      some (emitted c1pre ++ (emitted c1body ++ [doneEvent "All agents finished." "t5" "success"]))) ∧
    emitted (c1pre ++ HubOp.subscribe :: (c1body ++ [HubOp.finish "All agents finished." "t5" "success"])) =
      emitted c1pre ++ (emitted c1body ++ [doneEvent "All agents finished." "t5" "success"]) ∧
    deliverStream (emitted c1pre ++ (emitted c1body ++ [doneEvent "All agents finished." "t5" "success"])) =
      emitted c1pre ++ (emitted c1body ++ [doneEvent "All agents finished." "t5" "success"]) ∧
    (emitted c1pre ++ (emitted c1body ++ [doneEvent "All agents finished." "t5" "success"])).countP
      (fun e => e.done) = 1 ∧
    (emitted c1pre ++ (emitted c1body ++ [doneEvent "All agents finished." "t5" "success"])).getLast? =
      some (doneEvent "All agents finished." "t5" "success")) :=
  ⟨by decide, by decide,
   c1_subscriber_stream c1pre c1body "All agents finished." "t5" "success"
     (by decide) (by decide)⟩

/-! ### Claim C2 -/

/-- C2: for every run of the background job — whichever intermediate logs the
body emitted and whether it completed with a plan or escaped with an
exception — `run_agent_workflow` stores a value in the result slot (the task
list on success, the error descriptor on failure) and its event output
contains exactly one terminal event, which comes last; the worker is a total
function of the body outcome, so it never propagates an exception itself. -/
theorem c2_terminal_and_result (st : SessionState) (o : BodyOutcome)
    (logs : List LogCall) (tasks : List Task) (msg mTs dTs : String) :
    ((run_agent_workflow st (.ok logs tasks mTs dTs)).result =
      some (.plan tasks)) ∧
    ((run_agent_workflow st (.exn logs msg mTs dTs)).result =
      some (.errorDesc msg)) ∧
    ((run_agent_workflow st o).result = some (workflowResult o)) ∧
    (emitted (workflowOps o)).countP (fun e => e.done) = 1 ∧
    ((emitted (workflowOps o)).getLast?).map Event.done = some true := by
  obtain ⟨body, m, ts, s, hsplit, hnf⟩ := workflowOps_shape o
  have hnd := emitted_not_done body hnf
  refine ⟨rfl, rfl, rfl, ?_, ?_⟩
  · rw [hsplit, emitted_append]
    simp [emitted, opEmits, List.countP_append, countP_done_zero _ hnd,
      List.countP_cons, doneEvent]
  · rw [hsplit, emitted_append]
    simp [emitted, opEmits, doneEvent]

/-! ### Claim C10 -/

/-- C10: whatever sequence of emissions, terminal broadcasts and
subscriptions a session went through, the persisted event log contains no
event carrying the terminal marker — `add_log` (the only operation that
appends to the log) always stores `done := false`, and the terminal dicts go
through `broadcast_log` only. Hence GET logs (which returns the log) never
returns a terminal event, and a subscriber attaching after the job completed
gets exactly the log as backlog — with no terminal event, so its generator
keeps waiting (keepalives) instead of ending. -/
theorem c10_no_terminal_in_log (ops : List HubOp) :
    ((runHub HubState.empty ops).log.all (fun e => !e.done) = true) ∧
    ((runHub HubState.empty ops).log.countP (fun e => e.done) = 0) ∧
    ((applyHubOp (runHub HubState.empty ops) HubOp.subscribe).queues.getLast? =
      some (runHub HubState.empty ops).log) ∧
    (deliverStream (runHub HubState.empty ops).log =
      (runHub HubState.empty ops).log) := by
  have hall : (runHub HubState.empty ops).log.all (fun e => !e.done) = true := by
    rw [runHub_log]
    have : ∀ l : List HubOp, (loggedOf l).all (fun e => !e.done) = true := by
      intro l
      induction l with
      | nil => rfl
      | cons op l ih =>
          cases op with
          | emit a m s t => simp [loggedOf, opLogs, logEntry, ih]
          | finish m t s => simpa [loggedOf, opLogs] using ih
          | subscribe => simpa [loggedOf, opLogs] using ih
    simpa [HubState.empty] using this ops
  exact ⟨hall, countP_done_zero _ hall, by simp [applyHubOp],
    deliverStream_all_not_done _ hall⟩

/-! ### HTTP-level session state (main.py lines 34-38, 84-103) -/

/-- A module-level dict keyed by session id. -/
def StrMap (α : Type) := String → Option α

def setKey {α : Type} (m : StrMap α) (k : String) (v : α) : StrMap α :=
  fun x => if x = k then some v else m x

/-- The three module-level maps of main.py. -/
structure AppState where
  session_logs : StrMap (List Event)
  session_results : StrMap ResultVal
  session_queues : StrMap (List (List Event))

/-- main.py `generate_plan` (POST /api/plan), lines 84-93: sets
`session_logs[sid] = []` and `session_queues[sid] = []`, then spawns the
background job (which mutates the state only later). Note the function does
not touch `session_results`. -/
def generate_plan (st : AppState) (sid : String) : AppState :=
  { st with session_logs := setKey st.session_logs sid [],
            session_queues := setKey st.session_queues sid [] }

/-- Response of GET result: the stored value, or the processing marker. -/
inductive ResultResponse where
  | value (r : ResultVal)
  | processing
deriving DecidableEq

/-- main.py `get_result`, lines 99-103. -/
def get_result (st : AppState) (sid : String) : ResultResponse :=
  match st.session_results sid with
  | some r => .value r
  | none => .processing

/-- main.py `get_logs`, lines 95-97. -/
def get_logs (st : AppState) (sid : String) : List Event :=
  (st.session_logs sid).getD []

/-! ### Claim C4 -/

/-- A state in which session "s1" has a completed prior job: its result slot
holds the previous final plan. -/
def c4prior : AppState :=
  ⟨fun _ => none,
   fun sid => if sid = "s1" then
      some (ResultVal.plan [⟨"2025-05-01", "CS101", "Sorting", "learn", 2,
        "Ch 3 (pp. 40-55)", "Focus: quicksort"⟩]) else none,
   fun _ => none⟩

/-- C4 counterexample: the claim says a new POST /api/plan resets the result
slot so that GET result returns the processing marker until the new job
finishes. On the code, `generate_plan` resets only the log and the queue
list; immediately after the new submission (new job not finished), GET
result still returns the earlier job result, not the processing marker. -/
theorem c4_counterexample :
    get_result (generate_plan c4prior "s1") "s1" =
      ResultResponse.value (ResultVal.plan [⟨"2025-05-01", "CS101", "Sorting",
        "learn", 2, "Ch 3 (pp. 40-55)", "Focus: quicksort"⟩]) ∧
    get_result (generate_plan c4prior "s1") "s1" ≠ ResultResponse.processing := by
  constructor
  · rfl
  · intro h
    exact ResultResponse.noConfusion h

/-- C4 amended: a new POST /api/plan resets the session event log and its
subscriber-queue list, but not the result slot, which keeps the previous
job value until the new job overwrites it on completion; GET result
therefore returns the processing marker after submission only when no
result was ever stored for that session, and returns the previous job
result otherwise. -/
theorem c4_reset_behavior (st : AppState) (sid : String) :
    ((generate_plan st sid).session_logs sid = some []) ∧
    ((generate_plan st sid).session_queues sid = some []) ∧
    ((generate_plan st sid).session_results = st.session_results) ∧
    (st.session_results sid = none →
      get_result (generate_plan st sid) sid = ResultResponse.processing) ∧
    (∀ r, st.session_results sid = some r →
      get_result (generate_plan st sid) sid = ResultResponse.value r) := by
  refine ⟨by simp [generate_plan, setKey], by simp [generate_plan, setKey],
    rfl, ?_, ?_⟩
  · intro h
    simp [get_result, generate_plan, h]
  · intro r h
    simp [get_result, generate_plan, h]

theorem c4_reset_behavior_witness :
    c4prior.session_results "s1" =
      some (ResultVal.plan [⟨"2025-05-01", "CS101", "Sorting", "learn", 2,
        "Ch 3 (pp. 40-55)", "Focus: quicksort"⟩]) ∧
    get_result (generate_plan c4prior "s1") "s1" =
      ResultResponse.value (ResultVal.plan [⟨"2025-05-01", "CS101", "Sorting",
        "learn", 2, "Ch 3 (pp. 40-55)", "Focus: quicksort"⟩]) :=
  ⟨rfl, (c4_reset_behavior c4prior "s1").2.2.2.2 _ rfl⟩

/-! ### Exam date resolution (main.py lines 185-194, agents.py lines 457-464) -/

/-- Python `str.lower()`: per-character lowercasing. -/
def pyLower (s : String) : String := ⟨s.data.map Char.toLower⟩

theorem pyLower_eq_empty (s : String) : pyLower s = "" ↔ s = "" := by
  cases s with
  | mk data =>
      cases data with
      | nil => simp [pyLower]
      | cons c cs =>
          constructor
          · intro h
            have := congrArg String.data h
            simp [pyLower] at this
          · intro h
            have := congrArg String.data h
            simp at this

/-- The placeholder markers of main.py line 187 (the tuple includes ""). -/
def badDateMarkers : List String := ["unknown", "n/a", "none", ""]

/-- main.py lines 186-188: a truthy extracted date whose lowercase form is a
placeholder marker is replaced by the empty string. -/
def filterExtractedDate (extracted : String) : String :=
  if extracted ≠ "" ∧ pyLower extracted ∈ badDateMarkers then "" else extracted

/-- main.py line 189: `course.examDate if course.examDate else extracted`. -/
def resolveExamDate (courseExamDate extracted : String) : String :=
  let e := filterExtractedDate extracted
  if courseExamDate ≠ "" then courseExamDate else e

/-- agents.py lines 457-464 inside `generate_study_plan`: re-derive the exam
date for the compressed course record from the (already resolved) course
examDate and the raw scope exam_date, filter the placeholder markers again,
and use the literal "unknown" when no real date is left. -/
def resolveCompressedDate (courseDate scopeDate : String) : String :=
  let d := if courseDate ≠ "" then courseDate else scopeDate
  let d2 := if d ≠ "" ∧ pyLower d ∈ ["unknown", "n/a", "none"] then "" else d
  if d2 ≠ "" then d2 else "unknown"

/-! ### Claim C5 -/

/-- C5: the resolved exam date obeys manual-override > extracted > absent. A
non-empty client examDate is always the resolved date; with no override, the
extracted date is used unless it is empty or case-insensitively one of
"unknown"/"n/a"/"none", in which case the resolved date is empty. Moreover
the compressed record later sent to schedule synthesis never treats such a
value as a real date: it degrades to the explicit "unknown" marker. -/
theorem c5_exam_date_precedence (manual extracted : String) :
    (manual ≠ "" → resolveExamDate manual extracted = manual) ∧
    (manual = "" → pyLower extracted ∈ badDateMarkers →
      resolveExamDate manual extracted = "") ∧
    (manual = "" → pyLower extracted ∉ badDateMarkers →
      resolveExamDate manual extracted = extracted) ∧
    (manual = "" → pyLower extracted ∈ badDateMarkers →
      resolveCompressedDate (resolveExamDate manual extracted) extracted =
        "unknown") := by
  refine ⟨?_, ?_, ?_, ?_⟩
  · intro h
    simp [resolveExamDate, h]
  · intro hm he
    by_cases hx : extracted = ""
    · simp [resolveExamDate, filterExtractedDate, hm, hx]
    · simp [resolveExamDate, filterExtractedDate, hm, hx, he]
  · intro hm he
    have hx : extracted ≠ "" := by
      intro hx
      exact he (by simp [hx, pyLower, badDateMarkers])
    simp [resolveExamDate, filterExtractedDate, hm, hx, he]
  · intro hm he
    by_cases hx : extracted = ""
    · simp [resolveExamDate, filterExtractedDate, resolveCompressedDate, hm, hx,
        pyLower]
    · have hres : resolveExamDate manual extracted = "" := by
        simp [resolveExamDate, filterExtractedDate, hm, hx, he]
      have hlne : pyLower extracted ≠ "" := fun h => hx ((pyLower_eq_empty _).mp h)
      have he3 : pyLower extracted ∈ ["unknown", "n/a", "none"] := by
        simp only [badDateMarkers, List.mem_cons, List.not_mem_nil, or_false] at he
        rcases he with h | h | h | h
        · simp [h]
        · simp [h]
        · simp [h]
        · exact absurd h hlne
      rw [hres]
      simp [resolveCompressedDate, hx, he3]

theorem c5_exam_date_precedence_witness :
    (("2025-05-01" : String) ≠ "" ∧
      resolveExamDate "2025-05-01" "2025-06-01" = "2025-05-01") ∧
    (("" : String) = "" ∧ pyLower "unknown" ∈ badDateMarkers ∧
      resolveExamDate "" "unknown" = "" ∧
      resolveCompressedDate (resolveExamDate "" "unknown") "unknown" =
        "unknown") :=
  ⟨⟨by decide, (c5_exam_date_precedence "2025-05-01" "2025-06-01").1 (by decide)⟩,
   ⟨rfl, by decide,
    (c5_exam_date_precedence "" "unknown").2.1 rfl (by decide),
    (c5_exam_date_precedence "" "unknown").2.2.2 rfl (by decide)⟩⟩

/-! ### Topic fallback from syllabus modules (main.py lines 196-210) -/

/-- One topic value of `scope_info["topics"]`: the code tolerates both dicts
(with `name` and `importance`, where a missing `importance` key reads as
"medium" through `.get`) and bare strings. -/
inductive TopicVal where
  | obj (name importance : String)
  | str (s : String)
deriving DecidableEq

/-- One module value of `syllabus_info["modules"]`: a dict with a `name`
(empty string models a falsy/missing name) and a `topics` list (empty list
models a falsy/missing topics value), or any non-dict value, which the
fallback loop skips. -/
inductive ModuleVal where
  | dict (name : String) (topics : List String)
  | other
deriving DecidableEq

/-- The contribution of one module to the fallback topic list (main.py
lines 200-205): one medium-importance topic per module topic name, or the
module name itself when the module has no topics and a truthy name. -/
def moduleFallback : ModuleVal → List TopicVal
  | .dict name topics =>
      topics.map (fun t => TopicVal.obj t "medium") ++
        (if topics = [] ∧ name ≠ "" then [TopicVal.obj name "medium"] else [])
  | .other => []

/-- main.py lines 199-205: the synthesized `fallback_topics` list, built by
iterating the modules in order. -/
def fallback_topics (modules : List ModuleVal) : List TopicVal :=
  (modules.map moduleFallback).flatten

/-- main.py lines 196-210: replace a zero-length topic list by the
synthesized topics when the syllabus produced modules and the synthesis is
non-empty; otherwise keep the topics unchanged. -/
def applyTopicFallback (topics : List TopicVal) (modules : List ModuleVal) :
    List TopicVal :=
  if topics.length = 0 ∧ modules ≠ [] then
    (if fallback_topics modules ≠ [] then fallback_topics modules else topics)
  else topics

/-- The name list a module contributes: its topic names, or its own name if
it has no topics (and nothing if it is not a dict or has no truthy name). -/
def moduleNameList : ModuleVal → List String
  | .dict name topics => if topics = [] ∧ name ≠ "" then [name] else topics
  | .other => []

/-! ### Claim C7 -/

/-- C7: with zero ExamScopeAnalysis topics the course topic list becomes the
topics synthesized from the syllabus modules in order — each module
contributing its topic names, or its own name when it has none — all tagged
medium importance (the synthesized list is exactly the in-order
concatenation of per-module name lists, each wrapped as a medium topic);
with a non-empty topic list nothing is replaced; and on the spec example of
modules with topic lists ["A","B"] and ["C"], the derived topics are exactly
A, B, C, each medium. -/
theorem c7_module_topic_fallback (modules : List ModuleVal) :
    (applyTopicFallback [] modules = fallback_topics modules) ∧
    (fallback_topics modules =
      ((modules.map moduleNameList).flatten).map
        (fun n => TopicVal.obj n "medium")) ∧
    (∀ t ts, applyTopicFallback (t :: ts) modules = t :: ts) ∧
    (applyTopicFallback []
        [ModuleVal.dict "M1" ["A", "B"], ModuleVal.dict "M2" ["C"]] =
      [TopicVal.obj "A" "medium", TopicVal.obj "B" "medium",
       TopicVal.obj "C" "medium"]) := by
  refine ⟨?_, ?_, ?_, by decide⟩
  · by_cases hm : modules = []
    · simp [applyTopicFallback, fallback_topics, hm]
    · by_cases hfb : fallback_topics modules = []
      · simp [applyTopicFallback, hm, hfb]
      · simp [applyTopicFallback, hm, hfb]
  · induction modules with
    | nil => rfl
    | cons m ms ih =>
        have hm : moduleFallback m =
            (moduleNameList m).map (fun n => TopicVal.obj n "medium") := by
          cases m with
          | dict name topics =>
              by_cases h : topics = [] ∧ name ≠ ""
              · simp [moduleFallback, moduleNameList, h, h.1]
              · simp [moduleFallback, moduleNameList, h]
          | other => rfl
        simp only [fallback_topics] at ih
        simp only [fallback_topics, List.map_cons, List.flatten_cons,
          List.map_append]
        rw [hm, ih]
  · intro t ts
    simp [applyTopicFallback]

/-! ### TextbookMapping (agents.py lines 361-427) and the compression step of
ScheduleSynthesis (agents.py lines 430-466) -/

def listStartsWith : List Char → List Char → Bool
  | _, [] => true
  | [], _ :: _ => false
  | a :: as, b :: bs => a == b && listStartsWith as bs

/-- Worker for `pySplit`: scans left to right, splitting at every
(non-overlapping) occurrence of the separator. The fuel argument only bounds
the recursion; `pySplit` passes enough for it never to run out. -/
def pySplitGo (sep : List Char) : ℕ → List Char → List Char → List (List Char)
  | 0, rest, acc => [acc.reverse ++ rest]
  | _ + 1, [], acc => [acc.reverse]
  | fuel + 1, c :: rest, acc =>
      if listStartsWith (c :: rest) sep then
        acc.reverse :: pySplitGo sep fuel ((c :: rest).drop sep.length) []
      else pySplitGo sep fuel rest (c :: acc)

/-- Python `str.split(sep)` for a non-empty separator: split at each
left-to-right non-overlapping occurrence (callers in the code only pass the
constant fences; Python raises on an empty separator, so that case is
irrelevant and mapped to `[s]`). -/
def pySplit (s sep : String) : List String :=
  if sep.data = [] then [s]
  else (pySplitGo sep.data (s.data.length + 1) s.data []).map (fun l => ⟨l⟩)

/-- Python `str.strip()`: remove leading and trailing whitespace. -/
def pyStrip (s : String) : String :=
  ⟨(((s.data.dropWhile Char.isWhitespace).reverse).dropWhile
      Char.isWhitespace).reverse⟩

/-- Python substring test `needle in hay` (for nonempty separators,
`str.split` yields at least two parts exactly when the separator occurs;
`"" in hay` is always true). -/
def strContains (hay needle : String) : Bool :=
  needle == "" || (pySplit hay needle).length > 1

/-- One entry of the topic → resource mapping (`guide_info`), as a dict with
the keys the code reads; `.get` defaults ("", "Textbook", 2.0) are applied
where the code applies them, so the fields here model the values read. -/
structure GuideEntry where
  topic : String
  resource : String
  estimated_hours : ℚ
deriving DecidableEq

/-- A guide list element: a dict, or any non-dict value (skipped by the
matching loop at agents.py line 446). -/
inductive GuideItem where
  | dict (g : GuideEntry)
  | other
deriving DecidableEq

/-- One TOC section produced by the TocNavigator pass (only the page fields
are read by the code; `covers_topics` is never used). -/
structure TocSection where
  chapter : String
  start_page : ℕ
  end_page : ℕ
deriving DecidableEq

/-- agents.py lines 367-371: `t.get("name", str(t)) if isinstance(t, dict)
else str(t)`. -/
def topicName : TopicVal → String
  | .obj n _ => n
  | .str s => s

/-- agents.py line 441: `t.get("importance", "medium")` for dicts, "medium"
otherwise. -/
def topicImportance : TopicVal → String
  | .obj _ i => i
  | .str _ => "medium"

/-- The possible shapes of the StudyGuideGuru response after JSON recovery:
a dict with a `mappings` key, a bare list, or anything else. -/
inductive GuideResp where
  | objWithMappings (ms : List GuideItem)
  | list (ms : List GuideItem)
  | otherShape
deriving DecidableEq

/-- agents.py `analyze_textbook`, lines 361-427. The two LLM passes are
opaque: `sections` is the `relevant_sections` list recovered from the
TocNavigator response (the `.get` default `[]` covers a missing key), and
`guideResp` is the recovered StudyGuideGuru response. Control flow: no
textbook → `[]`; no topic names → `[]`; zero sections → the degraded
per-topic default, short-circuiting before any page sampling; otherwise the
mapping list extracted from the second pass. -/
def analyze_textbook (textbook_paths : List String) (topics : List TopicVal)
    (sections : List TocSection) (guideResp : GuideResp) : List GuideItem :=
  if textbook_paths = [] then []
  else
    let topic_names := topics.map topicName
    if topic_names = [] then []
    else if sections = [] then
      topic_names.map (fun t =>
        GuideItem.dict ⟨t, "Textbook (section not identified)", 2⟩)
    else
      match guideResp with
      | .objWithMappings ms => ms
      | .list ms => ms
      | .otherShape => []

/-- Whether `analyze_textbook` reaches the pass-2 page sampling
(`extract_pages_by_ranges` at agents.py line 407): only with a textbook, a
non-empty topic name list and at least one localized section. -/
def analyze_textbook_samples_pages (textbook_paths : List String)
    (topics : List TopicVal) (sections : List TocSection) : Bool :=
  if textbook_paths = [] then false
  else if topics.map topicName = [] then false
  else if sections = [] then false
  else true

/-- agents.py lines 444-451: the first guide dict matching a topic name
under the case-insensitive / substring policy. -/
def guideMatches (name : String) : GuideItem → Bool
  | .dict g =>
      pyLower g.topic == pyLower name ||
        strContains (pyLower g.topic) (pyLower name) ||
        strContains (pyLower name) (pyLower g.topic)
  | .other => false

/-- One compressed topic record (agents.py lines 438-455): resource and
hours come from the first matching guide entry, defaulting to "Textbook"
and 2.0 when nothing matches. -/
structure TopicSummary where
  topic : String
  importance : String
  resource : String
  hours : ℚ
deriving DecidableEq

def summarizeTopic (guide : List GuideItem) (t : TopicVal) : TopicSummary :=
  let name := topicName t
  match guide.find? (guideMatches name) with
  | some (.dict g) => ⟨name, topicImportance t, g.resource, g.estimated_hours⟩
  | _ => ⟨name, topicImportance t, "Textbook", 2⟩

def topics_summary (topics : List TopicVal) (guide : List GuideItem) :
    List TopicSummary :=
  topics.map (summarizeTopic guide)

/-- The per-course data record accumulated by main.py lines 244-249 as read
by `generate_study_plan`: the course code, the examDate resolved by main.py,
the raw scope exam_date, the scope topics and the guide list. -/
structure CourseData where
  code : String
  examDate : String
  scopeExamDate : String
  scopeTopics : List TopicVal
  guide : List GuideItem
deriving DecidableEq

/-- One compressed course record sent to the ChiefOrchestrator
(agents.py lines 462-466). -/
structure CompressedCourse where
  code : String
  exam_date : String
  topics : List TopicSummary
deriving DecidableEq

def compress (cds : List CourseData) : List CompressedCourse :=
  cds.map (fun cd =>
    ⟨cd.code, resolveCompressedDate cd.examDate cd.scopeExamDate,
      topics_summary cd.scopeTopics cd.guide⟩)

/-- The user constraints forwarded opaquely into the synthesis prompt. -/
structure Constraints where
  weekdayHours : ℚ
  weekendHours : ℚ
  noStudyDates : List String
  reviewFrequency : String
deriving DecidableEq

/-- The possible shapes of the ChiefOrchestrator response after JSON
recovery: a dict with a `tasks` key, a dict without one (including the `{}`
parse-failure default), or a bare list. -/
inductive OrchResult where
  | objWithTasks (tasks : List Task)
  | objNoTasks
  | arr (tasks : List Task)
deriving DecidableEq

/-- agents.py lines 486-490: extract the task list from the response shape,
defaulting to `[]`. -/
def extract_tasks : OrchResult → List Task
  | .objWithTasks ts => ts
  | .objNoTasks => []
  | .arr ts => ts

/-- agents.py `generate_study_plan`, lines 430-490: build the compressed
course records and the constraint text, send them to the ChiefOrchestrator
(the opaque external call, modelled as a function of exactly that input),
and return the task list extracted from its response — with no validation
or filtering of the returned tasks. -/
def generate_study_plan (cds : List CourseData) (cs : Constraints)
    (agent : List CompressedCourse → Constraints → OrchResult) : List Task :=
  extract_tasks (agent (compress cds) cs)

/-! ### Claim C8 -/

/-- C8: TextbookMapping always degrades instead of failing. With no textbook
the stage returns the empty mapping, and the compression step that feeds
ScheduleSynthesis then gives every topic the placeholder resource "Textbook"
with 2.0 estimated hours; with a textbook but zero localized TOC sections,
every topic is mapped to the "Textbook (section not identified)" resource
with the fixed 2.0-hour placeholder, and no page text is sampled from the
textbook (nor when there is no textbook at all). -/
theorem c8_textbook_degradation :
    (∀ topics sections resp, analyze_textbook [] topics sections resp = []) ∧
    (∀ topics, topics_summary topics [] =
      topics.map (fun t => ⟨topicName t, topicImportance t, "Textbook", 2⟩)) ∧
    (∀ p ps t ts resp,
      analyze_textbook (p :: ps) (t :: ts) [] resp =
        ((t :: ts).map topicName).map (fun n =>
          GuideItem.dict ⟨n, "Textbook (section not identified)", 2⟩)) ∧
    (∀ p ps topics,
      analyze_textbook_samples_pages (p :: ps) topics [] = false) ∧
    (∀ topics sections,
      analyze_textbook_samples_pages [] topics sections = false) := by
  refine ⟨fun topics sections resp => rfl, ?_, ?_, ?_, fun topics sections => rfl⟩
  · intro topics
    simp only [topics_summary]
    induction topics with
    | nil => rfl
    | cons t ts ih => simp [summarizeTopic, List.find?, ih]
  · intro p ps t ts resp
    simp [analyze_textbook]
  · intro p ps topics
    by_cases h : topics.map topicName = []
    · simp [analyze_textbook_samples_pages, h]
    · simp [analyze_textbook_samples_pages, h]

/-! ### Claim C9 -/

/-- Strict lexicographic order on character lists; on ISO `YYYY-MM-DD` date
strings it coincides with chronological order. -/
def charListLt : List Char → List Char → Bool
  | [], [] => false
  | [], _ :: _ => true
  | _ :: _, [] => false
  | a :: as, b :: bs =>
      if a < b then true else if b < a then false else charListLt as bs

def dateLt (a b : String) : Bool := charListLt a.data b.data

/-- The claim as stated: every task of the final schedule whose course has a
resolved (non-"unknown") exam date is dated strictly before that exam date. -/
def hardDeadlineClaim (cds : List CourseData) (cs : Constraints)
    (agent : List CompressedCourse → Constraints → OrchResult) : Prop :=
  ∀ t ∈ generate_study_plan cds cs agent,
    ∀ cc ∈ compress cds, cc.code = t.course → cc.exam_date ≠ "unknown" →
      dateLt t.date cc.exam_date = true

def c9cds : List CourseData := [⟨"MATH", "2025-06-01", "", [], []⟩]

def c9cs : Constraints := ⟨3, 6, [], "daily"⟩

/-- An agent response scheduling a task a month after the exam date. -/
def c9agent : List CompressedCourse → Constraints → OrchResult :=
  fun _ _ => .objWithTasks
    [⟨"2025-07-01", "MATH", "Limits", "learn", 1, "Ch 1 (pp. 1-10)",
      "Focus: limits"⟩]

/-- C9 counterexample: the code does not enforce the hard deadline. The
orchestrator states the rule in the prompt but returns the agent task list
verbatim, so a response scheduling a task on 2025-07-01 for a course whose
resolved exam date is 2025-06-01 becomes the final schedule, violating the
claimed property. -/
theorem c9_counterexample : ¬ hardDeadlineClaim c9cds c9cs c9agent := by
  intro h
  have := h ⟨"2025-07-01", "MATH", "Limits", "learn", 1, "Ch 1 (pp. 1-10)",
      "Focus: limits"⟩ (by decide)
    ⟨"MATH", "2025-06-01", []⟩ (by decide) rfl (by decide)
  exact absurd this (by decide)

/-- C9 amended: the hard-deadline rule is only an instruction to the
synthesis stage; the orchestrator performs no validation of the returned
schedule. `generate_study_plan` returns the external agent task list
verbatim (any task list, compliant or not, becomes the final schedule), so
the strict-inequality property holds only insofar as the external agent
complies; it is not guaranteed by the code. -/
theorem c9_no_deadline_enforcement (cds : List CourseData) (cs : Constraints)
    (ts : List Task) :
    (generate_study_plan cds cs (fun _ _ => OrchResult.objWithTasks ts) = ts) ∧
    (∀ agent, generate_study_plan cds cs agent =
      extract_tasks (agent (compress cds) cs)) :=
  ⟨rfl, fun _ => rfl⟩

/-! ### JSON recovery in run_agent (agents.py lines 293-316) -/

/-- `final_text.split("```json")[1].split("```")[0].strip()`. -/
def firstJsonBlock (text : String) : String :=
  pyStrip ((pySplit ((pySplit text "```json").getD 1 "") "```").headD "")

/-- `final_text.split("```")[1].split("```")[0].strip()`. -/
def firstAnyBlock (text : String) : String :=
  pyStrip ((pySplit ((pySplit text "```").getD 1 "") "```").headD "")

/-- agents.py lines 293-316: the JSON recovery around the raw agent response.
`p` abstracts `json.loads` (`some` on parse success, `none` on
`JSONDecodeError`); `dflt` is the empty-mapping default `\x7b\x7d`. Control
flow is exactly that of the source: whole text first; on failure, the
`"```json" in final_text` branch, and only in its absence (elif) the plain
`"```"` branch; every failure path returns the default, and an empty
response returns the default directly. -/
def recoverJson {α : Type} (p : String → Option α) (dflt : α)
    (final_text : String) : α :=
  if final_text ≠ "" then
    match p final_text with
    | some v => v
    | none =>
        if strContains final_text "```json" then
          match p (firstJsonBlock final_text) with
          | some v => v
          | none => dflt
        else if strContains final_text "```" then
          match p (firstAnyBlock final_text) with
          | some v => v
          | none => dflt
        else dflt
  else dflt

/-- Modelled from the claim wording (C3): the recovery as a strict
first-success-wins cascade where each later step is attempted whenever all
earlier steps fail — in particular, when the json-labelled block fails to
parse, the plain fenced block is still attempted. Stated only for
comparison with `recoverJson`, which is the code. -/
def recoverJsonSpec {α : Type} (p : String → Option α) (dflt : α)
    (final_text : String) : α :=
  if final_text ≠ "" then
    match p final_text with
    | some v => v
    | none =>
        match (if strContains final_text "```json" then
            p (firstJsonBlock final_text) else none) with
        | some v => v
        | none =>
            match (if strContains final_text "```" then
                p (firstAnyBlock final_text) else none) with
            | some v => v
            | none => dflt
  else dflt

/-- A model of `json.loads` adequate for the probed inputs: it succeeds
exactly on the text `\x7b"a":1\x7d` (which is valid JSON, yielding the
mapping a ↦ 1, represented as 1), and fails on every other probed string
(none of which is valid JSON). -/
def pDemo : String → Option ℕ :=
  fun s => if s = "\x7b\"a\":1\x7d" then some 1 else none

/-- A response whose first fenced block is valid JSON but whose (later)
json-labelled fence encloses garbage. -/
def c3text : String := "```\n\x7b\"a\":1\x7d\n```json x"

/-! ### Claim C3 -/

/-- C3 counterexample: the claim says each later recovery step is attempted
whenever all earlier steps fail. On `c3text` the whole-text parse fails and
the json-labelled block (" x") fails to parse, yet the code returns the
empty default without attempting the plain fenced block — whose contents
parse fine, as the spec-reading cascade shows by returning 1. -/
theorem c3_counterexample :
    recoverJson pDemo 0 c3text = 0 ∧
    recoverJsonSpec pDemo 0 c3text = 1 ∧
    recoverJson pDemo 0 c3text ≠ recoverJsonSpec pDemo 0 c3text :=
  ⟨by decide, by decide, by decide⟩

/-- C3 amended: the recovery proceeds whole-text first; if that fails and
the text contains a ```json fence, the result is determined by the first
such block alone (its parse failure yields the empty default, with no
fallthrough to step 3); only when no ```json fence exists but some ```
fence does is the first plain block parsed; with no fence, or an empty
response, the empty default is returned — and in every case the function is
total, so no exception propagates to the pipeline. -/
theorem c3_amended {α : Type} (p : String → Option α) (dflt : α) (t : String) :
    (t ≠ "" → ∀ v, p t = some v → recoverJson p dflt t = v) ∧
    (t ≠ "" → p t = none → strContains t "```json" = true →
      recoverJson p dflt t = (p (firstJsonBlock t)).getD dflt) ∧
    (t ≠ "" → p t = none → strContains t "```json" = false →
      strContains t "```" = true →
      recoverJson p dflt t = (p (firstAnyBlock t)).getD dflt) ∧
    (t ≠ "" → p t = none → strContains t "```json" = false →
      strContains t "```" = false → recoverJson p dflt t = dflt) ∧
    (t = "" → recoverJson p dflt t = dflt) := by
  refine ⟨?_, ?_, ?_, ?_, ?_⟩
  · intro ht v hv
    simp [recoverJson, ht, hv]
  · intro ht hp hjson
    cases hblock : p (firstJsonBlock t) with
    | none => simp [recoverJson, ht, hp, hjson, hblock]
    | some v => simp [recoverJson, ht, hp, hjson, hblock]
  · intro ht hp hjson hfence
    cases hblock : p (firstAnyBlock t) with
    | none => simp [recoverJson, ht, hp, hjson, hfence, hblock]
    | some v => simp [recoverJson, ht, hp, hjson, hfence, hblock]
  · intro ht hp hjson hfence
    simp [recoverJson, ht, hp, hjson, hfence]
  · intro ht
    simp [recoverJson, ht]

def c3direct : String := "\x7b\"a\":1\x7d"

def c3fencedJson : String := "```json\n\x7b\"a\":1\x7d\n```"

def c3fencedPlain : String := "```\n\x7b\"a\":1\x7d\n```"

theorem c3_amended_witness :
    recoverJson pDemo 0 c3direct = 1 ∧
    recoverJson pDemo 0 c3fencedJson = 1 ∧
    recoverJson pDemo 0 c3fencedPlain = 1 ∧
    recoverJson pDemo 0 "not json" = 0 ∧
    recoverJson pDemo 0 "" = 0 := by
  refine ⟨?_, ?_, ?_, ?_, ?_⟩
  · exact (c3_amended pDemo 0 c3direct).1 (by decide) 1 (by decide)
  · rw [(c3_amended pDemo 0 c3fencedJson).2.1 (by decide) (by decide)
      (by decide)]
    decide
  · rw [(c3_amended pDemo 0 c3fencedPlain).2.2.1 (by decide) (by decide)
      (by decide) (by decide)]
    decide
  · exact (c3_amended pDemo 0 "not json").2.2.2.1 (by decide) (by decide)
      (by decide) (by decide)
  · exact (c3_amended pDemo 0 "").2.2.2.2 rfl

/-! ### The rate limiter `_rate_limit` (agents.py lines 24-39) -/

/-- agents.py line 28: `_RPM_DELAY = 13`. -/
def RPM_DELAY : ℕ := 13

/-- The control state of one `_rate_limit()` call: not yet run, suspended in
`asyncio.sleep` until `wakeAt`, or returned with its permit time. -/
inductive RLPc where
  | ready
  | sleeping (wakeAt : ℕ)
  | finished (permitAt : ℕ)
deriving DecidableEq

/-- Global state: the clock, the shared `_last_api_call`, and the calls. -/
structure RLState where
  clock : ℕ
  last : ℕ
  procs : List RLPc
deriving DecidableEq

/-- Scheduler actions: let time pass, or run the next atomic block of call
`i`. The blocks mirror the source: a ready call atomically reads the clock
and `_last_api_call` and either (elapsed ≥ delay) immediately writes
`_last_api_call` and returns, or computes its wait and suspends — without
holding any lock; a due sleeping call wakes and unconditionally writes
`_last_api_call` and returns (the code re-reads nothing after the sleep). -/
inductive RLOp where
  | tick (d : ℕ)
  | step (i : ℕ)
deriving DecidableEq

def rlApply (s : RLState) : RLOp → RLState
  | .tick d => { s with clock := s.clock + d }
  | .step i =>
      match s.procs[i]? with
      | some .ready =>
          let elapsed := s.clock - s.last
          if elapsed < RPM_DELAY then
            { s with procs :=
                s.procs.set i (.sleeping (s.clock + (RPM_DELAY - elapsed))) }
          else
            { s with procs := s.procs.set i (.finished s.clock),
                     last := s.clock }
      | some (.sleeping w) =>
          if w ≤ s.clock then
            { s with procs := s.procs.set i (.finished s.clock),
                     last := s.clock }
          else s
      | _ => s

def rlRun (s : RLState) (ops : List RLOp) : RLState := ops.foldl rlApply s

/-- The permit times of the completed calls, in call order. -/
def permitTimes (s : RLState) : List ℕ :=
  s.procs.filterMap (fun pc =>
    match pc with
    | .finished t => some t
    | _ => none)

/-- The claimed property of a permit-time sequence: consecutive permitted
call starts at least `RPM_DELAY` apart. -/
def gapsOK : List ℕ → Bool
  | a :: b :: rest => decide (a + RPM_DELAY ≤ b) && gapsOK (b :: rest)
  | _ => true

/-- Call A permitted at t=100 (so `_last_api_call` = 100); calls B and C of
two overlapping jobs both run their read-and-compute block at t=105, both
observing elapsed 5 and suspending until t=113; both wake at t=113 and are
permitted, 0 apart. -/
def raceInit : RLState := ⟨100, 0, [.ready, .ready, .ready]⟩

def raceOps : List RLOp :=
  [.step 0, .tick 5, .step 1, .step 2, .tick 8, .step 1, .step 2]

/-! ### Claim C6 -/

/-- C6: evaluating the limiter at the racing interleaving. Because
`_last_api_call` is read before the sleep and written after it with no
mutual exclusion and no re-check, two overlapping callers both observe the
stale timestamp, sleep the same interval, and are both permitted at the
same instant: the permit times are 100, 113, 113, violating the claimed
minimum 13-unit gap between consecutive permitted call starts (any single
non-overlapping sequence does keep the gap, since each next read sees the
previous write). -/
theorem c6_rate_limiter_race :
    permitTimes (rlRun raceInit raceOps) = [100, 113, 113] ∧
    gapsOK (permitTimes (rlRun raceInit raceOps)) = false :=
  ⟨by decide, by decide⟩

end PrepX
